import Mathlib

/-!
Shallow embedding of the SkyWidget alerting/notification/discovery core
(`src-tauri/src/alerts`, `src-tauri/src/storage`, `src-tauri/src/network`),
with theorems checking the natural-language specification against it.

Machine `f32` metric values are embedded as exact rationals (`ℚ`); timestamps
(`chrono` second/millisecond counts, Rust `i64`) are embedded as `Int`.
Calls to the ambient clock (`chrono::Utc::now()`) and to the UUID generator
are made explicit parameters of the embedded operations.
-/

namespace SkyWidget

/-- Alert severity level (`AlertSeverity` in `alerts/rules.rs`). -/
inductive AlertSeverity where
  | Info
  | Warning
  | Error
  | Critical
  deriving DecidableEq

/-- Alert condition (`AlertCondition` in `alerts/rules.rs`): a closed sum of
threshold predicates plus a `Custom` variant carrying metric name, threshold
and a comparison-operator string. -/
inductive AlertCondition where
  | CpuUsageAbove (threshold : ℚ)
  | MemoryUsageAbove (threshold : ℚ)
  | DiskUsageAbove (threshold : ℚ)
  | CpuTemperatureAbove (threshold : ℚ)
  | ChipsetTemperatureAbove (threshold : ℚ)
  | FanStopped
  | FanSlowSpeed
  | DiskTemperatureAbove (threshold : ℚ)
  | DiskHealthWarning
  | VoltageAbnormal
  | MemoryTemperatureAbove (threshold : ℚ)
  | MemoryErrors
  | Custom (metric_name : String) (threshold : ℚ) (operator : String)
  deriving DecidableEq

/-- Alert rule (`AlertRule` in `alerts/rules.rs`). -/
structure AlertRule where
  id : String
  name : String
  description : String
  condition : AlertCondition
  severity : AlertSeverity
  enabled : Bool
  cooldown_seconds : Int
  last_triggered : Option Int
  notify_nodes : List String
  deriving DecidableEq

/-- `AlertRule::new`: enabled, 300-second cooldown, never triggered,
empty target list. -/
def AlertRule.new (id name description : String) (condition : AlertCondition)
    (severity : AlertSeverity) : AlertRule :=
  { id, name, description, condition, severity,
    enabled := true,
    cooldown_seconds := 300,
    last_triggered := none,
    notify_nodes := [] }

/-- A metrics snapshot: the `HashMap<String, f32>` consumed by
`AlertRule::should_trigger`, embedded as a map from metric name to an
optional rational value. -/
abbrev Snapshot := String → Option ℚ

/-- The repeated lookup-and-compare pattern of the non-custom arms of the
`match` in `AlertRule::should_trigger`: the bound metric, if present, is
compared with strict `>` against the threshold; an absent metric never
triggers. -/
def metricAbove (metrics : Snapshot) (key : String) (threshold : ℚ) : Bool :=
  match metrics key with
  | some value => decide (value > threshold)
  | none => false

/-- The condition-evaluation `match` of `AlertRule::should_trigger`
(`alerts/rules.rs` lines 133-237), one arm per `AlertCondition` variant. -/
def evalCondition (c : AlertCondition) (metrics : Snapshot) : Bool :=
  match c with
  | .CpuUsageAbove threshold => metricAbove metrics "cpu_usage" threshold
  | .MemoryUsageAbove threshold => metricAbove metrics "memory_usage_percent" threshold
  | .DiskUsageAbove threshold => metricAbove metrics "disk_usage_percent" threshold
  | .CpuTemperatureAbove threshold => metricAbove metrics "cpu_temperature" threshold
  | .ChipsetTemperatureAbove threshold => metricAbove metrics "chipset_temperature" threshold
  | .FanStopped => metricAbove metrics "fans_stopped_count" 0
  | .FanSlowSpeed => metricAbove metrics "fans_slow_speed_count" 0
  | .DiskTemperatureAbove threshold => metricAbove metrics "disk_max_temperature" threshold
  | .DiskHealthWarning =>
    match metrics "disk_warning_count" with
    | some warning_disks => decide (warning_disks > 0)
    | none =>
      match metrics "disk_critical_count" with
      | some critical_disks => decide (critical_disks > 0)
      | none => false
  | .VoltageAbnormal => metricAbove metrics "voltage_abnormal_count" 0
  | .MemoryTemperatureAbove threshold => metricAbove metrics "memory_temperature" threshold
  | .MemoryErrors => metricAbove metrics "memory_uncorrectable_errors" 0
  | .Custom metric_name threshold operator =>
    match metrics metric_name with
    | some value =>
      if operator = ">" then decide (value > threshold)
      else if operator = "<" then decide (value < threshold)
      else if operator = "==" then decide (|value - threshold| < 0.001)
      else if operator = "!=" then decide (|value - threshold| ≥ 0.001)
      else false
    | none => false

/-- The cooldown check of `AlertRule::should_trigger`: blocked exactly when
`last_triggered` is set and `now - last_triggered < cooldown_seconds`. -/
def cooldownActive (r : AlertRule) (now : Int) : Bool :=
  match r.last_triggered with
  | some last_trigger => decide (now - last_trigger < r.cooldown_seconds)
  | none => false

/-- `AlertRule::should_trigger` (`alerts/rules.rs` lines 119-238), with the
clock reading `now` made an explicit parameter. -/
def AlertRule.should_trigger (r : AlertRule) (now : Int) (metrics : Snapshot) : Bool :=
  if !r.enabled then false
  else if cooldownActive r now then false
  else evalCondition r.condition metrics

/-- `AlertRule::mark_triggered`: stamp `last_triggered` with the current
time. -/
def AlertRule.mark_triggered (r : AlertRule) (now : Int) : AlertRule :=
  { r with last_triggered := some now }

/-! ## Rule engine (`alerts/engine.rs`)

The engine holds the rule list behind one lock; the embedded operations below
are the pure state transformers performed under that lock. -/

/-- `AlertEngine::add_rule`: push the new rule onto the rule list.  The engine
performs no uniqueness check on the pushed rule's id. -/
def add_rule (rule : AlertRule) (rules : List AlertRule) : List AlertRule :=
  rules ++ [rule]

/-- `AlertEngine::remove_rule`: retain exactly the rules whose id differs from
`rule_id`; an unknown id removes nothing and is not an error. -/
def remove_rule (rule_id : String) (rules : List AlertRule) : List AlertRule :=
  rules.filter (fun r => r.id != rule_id)

/-- `AlertEngine::toggle_rule`: set the `enabled` flag of the first rule whose
id matches (`iter_mut().find`); an unknown id changes nothing. -/
def toggle_rule (rule_id : String) (enabled : Bool) : List AlertRule → List AlertRule
  | [] => []
  | r :: rs =>
    if r.id = rule_id then { r with enabled := enabled } :: rs
    else r :: toggle_rule rule_id enabled rs

/-- The per-tick evaluate-and-stamp step of `AlertEngine::start`: every rule
for which `should_trigger` holds on the snapshot is stamped with
`mark_triggered`; the others are left unchanged. -/
def evaluate_tick (now : Int) (metrics : Snapshot) (rules : List AlertRule) : List AlertRule :=
  rules.map (fun r => if r.should_trigger now metrics then r.mark_triggered now else r)

/-! ## Peer nodes and the notifier (`network/node.rs`, `alerts/notifier.rs`) -/

/-- Node liveness status (`NodeStatus` in `network/node.rs`). -/
inductive NodeStatus where
  | Online
  | Offline
  | Alerting
  deriving DecidableEq

/-- Peer record (`NodeInfo` in `network/node.rs`); the IP address is embedded
as its display string. -/
structure NodeInfo where
  id : String
  name : String
  ip_address : String
  api_port : Nat
  last_heartbeat : Int
  status : NodeStatus
  os_info : String
  version : String
  deriving DecidableEq

/-- The fan-out target resolution of `AlertNotifier::send_alert`
(`alerts/notifier.rs` lines 62-81): with an empty `target_node_ids` every
currently known remote node is targeted, otherwise exactly the known nodes
whose id occurs in `target_node_ids`.  The subsequent delivery loop posts one
HTTP notification to each element of this list and to nobody else. -/
def send_alert_targets (target_node_ids : List String) (remote_nodes : List NodeInfo) :
    List NodeInfo :=
  if target_node_ids.isEmpty then remote_nodes
  else remote_nodes.filter (fun node => target_node_ids.contains node.id)

/-! ## Discovery service (`network/discovery.rs`)

The discovered-node map (`HashMap<String, NodeInfo>` keyed by node id) is
embedded as an association list of (key, node) entries; `insert` replaces the
entry with the same key if present, `retain` filters entries. -/

/-- The discovered-node map. -/
abbrev PeerMap := List (String × NodeInfo)

/-- `HashMap::insert`: replace the entry holding key `k` or append a new one. -/
def insertPeer (k : String) (v : NodeInfo) : PeerMap → PeerMap
  | [] => [(k, v)]
  | (k', v') :: rest => if k' = k then (k, v) :: rest else (k', v') :: insertPeer k v rest

/-- The advertised-service name computed for a peer in the `ServiceRemoved`
arm: `format!("{}._skywidget._tcp.local.", node.name)`. -/
def service_name_of (name : String) : String :=
  name ++ "._skywidget._tcp.local."

/-- An mDNS service event as seen by `DiscoveryService::handle_service_event`.
`ServiceResolved` carries the result of `extract_node_info` on the resolved
service (`none` models a malformed property set, which is silently dropped);
`ServiceRemoved` carries the removed service's full name; `Other` stands for
every other `mdns_sd::ServiceEvent` variant, all ignored. -/
inductive DiscoveryEvent where
  | ServiceResolved (node : Option NodeInfo)
  | ServiceRemoved (fullname : String)
  | Other

/-- `DiscoveryService::handle_service_event` (`network/discovery.rs` lines
97-128) as a transformer of the discovered-node map. -/
def handle_service_event (local_node_id : String) (event : DiscoveryEvent)
    (nodes : PeerMap) : PeerMap :=
  match event with
  | .ServiceResolved none => nodes
  | .ServiceResolved (some node_info) =>
    if node_info.id = local_node_id then nodes
    else insertPeer node_info.id node_info nodes
  | .ServiceRemoved fullname =>
    nodes.filter (fun p => service_name_of p.2.name != fullname)
  | .Other => nodes

/-- `DiscoveryService::cleanup_offline_nodes`: retain exactly the peers with
`now - last_heartbeat < timeout_seconds`. -/
def cleanup_offline_nodes (now timeout_seconds : Int) (nodes : PeerMap) : PeerMap :=
  nodes.filter (fun p => decide (now - p.2.last_heartbeat < timeout_seconds))

/-- One step of the discovery state: either a service event handled by the
browse loop or a periodic cleanup sweep. -/
inductive DiscoveryStep where
  | event (e : DiscoveryEvent)
  | cleanup (now timeout_seconds : Int)

/-- Apply one discovery step to the discovered-node map. -/
def applyDiscoveryStep (local_node_id : String) (nodes : PeerMap) :
    DiscoveryStep → PeerMap
  | .event e => handle_service_event local_node_id e nodes
  | .cleanup now timeout_seconds => cleanup_offline_nodes now timeout_seconds nodes

/-- Run the discovery service from its initial empty map over any interleaving
of events and cleanup sweeps. -/
def runDiscovery (local_node_id : String) (steps : List DiscoveryStep) : PeerMap :=
  steps.foldl (applyDiscoveryStep local_node_id) []

/-! ## Alert history store (`storage/alerts_store.rs`) -/

/-- Alert history record (`AlertRecord` in `storage/alerts_store.rs`). -/
structure AlertRecord where
  id : String
  rule_id : String
  rule_name : String
  message : String
  severity : AlertSeverity
  timestamp : Int
  acknowledged : Bool
  deriving DecidableEq

/-- The inputs of one `AlertsStore::add_record` call, with the internally
generated UUID and clock reading made explicit. -/
structure AddRecordInput where
  id : String
  timestamp : Int
  rule_id : String
  rule_name : String
  message : String
  severity : AlertSeverity
  deriving DecidableEq

/-- The record constructed inside `AlertsStore::add_record`: fresh id and
timestamp, not yet acknowledged. -/
def mkAlertRecord (i : AddRecordInput) : AlertRecord :=
  { id := i.id, rule_id := i.rule_id, rule_name := i.rule_name,
    message := i.message, severity := i.severity,
    timestamp := i.timestamp, acknowledged := false }

/-- Alert history store (`AlertsStore`): a FIFO queue of records (front =
oldest) and the capacity fixed at construction. -/
structure AlertsStore where
  records : List AlertRecord
  max_records : Nat

/-- `AlertsStore::new`. -/
def AlertsStore.new (max_records : Nat) : AlertsStore :=
  { records := [], max_records := max_records }

/-- `AlertsStore::add_record` (`storage/alerts_store.rs` lines 50-73):
`push_back` the new record, then `pop_front` one record if the queue now
exceeds `max_records`. -/
def AlertsStore.add_record (s : AlertsStore) (i : AddRecordInput) : AlertsStore :=
  let rs := s.records ++ [mkAlertRecord i]
  { s with records := if rs.length > s.max_records then rs.drop 1 else rs }

/-- The record-list transformation of `AlertsStore::acknowledge`: flag the
first record with the given id and report whether one was found. -/
def ackRecords (record_id : String) : List AlertRecord → Bool × List AlertRecord
  | [] => (false, [])
  | r :: rs =>
    if r.id = record_id then (true, { r with acknowledged := true } :: rs)
    else
      let res := ackRecords record_id rs
      (res.1, r :: res.2)

/-- `AlertsStore::acknowledge` (`storage/alerts_store.rs` lines 90-97). -/
def AlertsStore.acknowledge (s : AlertsStore) (record_id : String) : Bool × AlertsStore :=
  let res := ackRecords record_id s.records
  (res.1, { s with records := res.2 })

/-- `AlertsStore::clear`. -/
def AlertsStore.clear (s : AlertsStore) : AlertsStore :=
  { s with records := [] }

/-- The `acknowledge_alert` Tauri command (`main.rs` lines 151-159): surfaces
an unknown record id as an error; on success the store carries the flagged
record. -/
def acknowledge_alert (s : AlertsStore) (record_id : String) : Except String AlertsStore :=
  let res := s.acknowledge record_id
  if res.1 then Except.ok res.2 else Except.error "Alert record not found"

/-- One mutating operation on the alert history store. -/
inductive AlertsOp where
  | add (i : AddRecordInput)
  | ack (record_id : String)
  | clear

/-- Apply one store operation. -/
def AlertsStore.applyOp (s : AlertsStore) : AlertsOp → AlertsStore
  | .add i => s.add_record i
  | .ack record_id => (s.acknowledge record_id).2
  | .clear => s.clear

/-- Run a sequence of store operations. -/
def runAlertsOps (ops : List AlertsOp) (s : AlertsStore) : AlertsStore :=
  ops.foldl AlertsStore.applyOp s

/-- Run a sequence of `add_record` calls. -/
def addAllRecords (is : List AddRecordInput) (s : AlertsStore) : AlertsStore :=
  is.foldl AlertsStore.add_record s

/-! ## Metrics time-series store (`storage/metrics.rs`) -/

/-- Time-series data point (`MetricDataPoint` in `storage/metrics.rs`). -/
structure MetricDataPoint where
  timestamp : Int
  value : ℚ
  deriving DecidableEq

/-- Metrics time-series store (`MetricsStore`): per-metric point lists (the
`HashMap<String, Vec<MetricDataPoint>>` embedded as a function defaulting to
the empty list, matching `entry(..).or_insert_with(Vec::new)`) and the
per-metric capacity fixed at construction. -/
structure MetricsStore where
  data : String → List MetricDataPoint
  max_data_points : Nat

/-- `MetricsStore::new`. -/
def MetricsStore.new (max_data_points : Nat) : MetricsStore :=
  { data := fun _ => [], max_data_points := max_data_points }

/-- The length-based trim inside `MetricsStore::add_metric`:
`points.drain(0..(points.len() - max_data_points))` when the list exceeds the
capacity, i.e. keep the most recent `max_data_points` points. -/
def trimPoints (max_data_points : Nat) (points : List MetricDataPoint) :
    List MetricDataPoint :=
  if points.length > max_data_points then points.drop (points.length - max_data_points)
  else points

/-- `MetricsStore::add_metric` (`storage/metrics.rs` lines 34-45), with the
clock reading `now` made an explicit parameter. -/
def MetricsStore.add_metric (s : MetricsStore) (now : Int) (metric_name : String)
    (value : ℚ) : MetricsStore :=
  let points := s.data metric_name ++ [{ timestamp := now, value := value }]
  { s with data := Function.update s.data metric_name (trimPoints s.max_data_points points) }

/-- The inputs of one `MetricsStore::add_metric` call. -/
structure MetricAdd where
  now : Int
  metric_name : String
  value : ℚ

/-- Run a sequence of `add_metric` calls. -/
def runMetricAdds (as' : List MetricAdd) (s : MetricsStore) : MetricsStore :=
  as'.foldl (fun st a => st.add_metric a.now a.metric_name a.value) s

/-- Run a sequence of `add_metric` calls that all target one metric,
given as a list of (clock reading, value) pairs. -/
def addMetricSeq (metric_name : String) (ps : List (Int × ℚ)) (s : MetricsStore) :
    MetricsStore :=
  ps.foldl (fun st p => st.add_metric p.1 metric_name p.2) s

/-! ## Concrete sample data used in witnesses -/

/-- A snapshot holding only `cpu_usage`, with the given value. -/
def snapCpu (v : ℚ) : Snapshot := fun s => if s = "cpu_usage" then some v else none

/-- A snapshot holding only the metric `"temp"`, with the given value. -/
def snapTemp (v : ℚ) : Snapshot := fun s => if s = "temp" then some v else none

/-- The first default rule of `default_rules` in `alerts/rules.rs`. -/
def cpu_high_rule : AlertRule :=
  AlertRule.new "cpu_high" "CPU 高负载告警" "CPU 使用率超过 80%" (.CpuUsageAbove 80) .Warning

/-- A sample custom rule comparing the metric `"temp"` with `==` against 50. -/
def custom_eq_rule : AlertRule :=
  AlertRule.new "custom_eq" "temp eq" "temp equals 50" (.Custom "temp" 50 "==") .Info

/-- A sample peer record. -/
def nodeA : NodeInfo :=
  { id := "node-a", name := "alpha", ip_address := "192.168.0.2", api_port := 3030,
    last_heartbeat := 100, status := .Online, os_info := "linux", version := "0.1.0" }

/-- A second sample peer record sharing `nodeA`'s display name under a
different id. -/
def nodeB : NodeInfo :=
  { id := "node-b", name := "alpha", ip_address := "192.168.0.3", api_port := 3030,
    last_heartbeat := 100, status := .Online, os_info := "linux", version := "0.1.0" }

/-! ## Claims about rule evaluation -/

/-- Once the `enabled` and cooldown checks pass, `should_trigger` is exactly
the condition evaluation. -/
lemma should_trigger_of_checks (r : AlertRule) (now : Int)
    (hen : r.enabled = true) (hcd : cooldownActive r now = false) :
    ∀ m : Snapshot, r.should_trigger now m = evalCondition r.condition m := by
  intro m
  simp [AlertRule.should_trigger, hen, hcd]

/-- A rule that triggers is enabled. -/
lemma enabled_of_should_trigger (r : AlertRule) (now : Int) (m : Snapshot)
    (htrig : r.should_trigger now m = true) : r.enabled = true := by
  cases he : r.enabled with
  | true => rfl
  | false => simp [AlertRule.should_trigger, he] at htrig

/-- C1: after a rule triggers at `now` and is stamped by `mark_triggered`, a
second evaluation strictly less than `cooldown_seconds` later returns no
trigger, whatever the new snapshot; once at least `cooldown_seconds` have
elapsed the cooldown no longer blocks, and the rule triggers again exactly
when its condition holds on the new snapshot. -/
theorem cooldown_blocks_retrigger (r : AlertRule) (now now' : Int) (m m' : Snapshot)
    (htrig : r.should_trigger now m = true) :
    (now' - now < r.cooldown_seconds →
      (r.mark_triggered now).should_trigger now' m' = false)
  ∧ (r.cooldown_seconds ≤ now' - now →
      (r.mark_triggered now).should_trigger now' m' = evalCondition r.condition m') := by
  have hen : r.enabled = true := enabled_of_should_trigger r now m htrig
  constructor
  · intro hlt
    simp [AlertRule.should_trigger, AlertRule.mark_triggered, cooldownActive, hen, hlt]
  · intro hge
    have hnlt : ¬ (now' - now < r.cooldown_seconds) := by omega
    simp [AlertRule.should_trigger, AlertRule.mark_triggered, cooldownActive, hen, hnlt]

/-- Witness for C1: the default CPU rule triggers at time 0 on 85% usage, and
the stamped rule stays silent 10 seconds later even though the condition still
holds. -/
theorem cooldown_blocks_retrigger_witness :
    (cpu_high_rule.mark_triggered 0).should_trigger 10 (snapCpu 85) = false :=
  (cooldown_blocks_retrigger cpu_high_rule 0 10 (snapCpu 85) (snapCpu 85)
    (by decide)).1 (by decide)

/-- C2: an enabled, non-cooling-down rule with condition `CpuUsageAbove 80`
triggers on the snapshot mapping `cpu_usage` to 85, does not trigger on the
snapshot mapping it to exactly 80 (strict `>`), and does not trigger on any
snapshot in which `cpu_usage` is absent. -/
theorem cpu_usage_above_trigger_cases (r : AlertRule) (now : Int)
    (hen : r.enabled = true) (hcd : cooldownActive r now = false)
    (hc : r.condition = .CpuUsageAbove 80) :
    r.should_trigger now (snapCpu 85) = true
  ∧ r.should_trigger now (snapCpu 80) = false
  ∧ ∀ m : Snapshot, m "cpu_usage" = none → r.should_trigger now m = false := by
  have key := should_trigger_of_checks r now hen hcd
  refine ⟨?_, ?_, ?_⟩
  · rw [key, hc]; decide
  · rw [key, hc]; decide
  · intro m hm
    rw [key, hc]
    simp [evalCondition, metricAbove, hm]

/-- Witness for C2 at the default CPU rule and time 0. -/
theorem cpu_usage_above_trigger_cases_witness :
    cpu_high_rule.should_trigger 0 (snapCpu 85) = true
  ∧ cpu_high_rule.should_trigger 0 (snapCpu 80) = false
  ∧ cpu_high_rule.should_trigger 0 (fun _ => none) = false :=
  ⟨(cpu_usage_above_trigger_cases cpu_high_rule 0 rfl rfl rfl).1,
   (cpu_usage_above_trigger_cases cpu_high_rule 0 rfl rfl rfl).2.1,
   (cpu_usage_above_trigger_cases cpu_high_rule 0 rfl rfl rfl).2.2 (fun _ => none) rfl⟩

/-- Evaluation of a `Custom` condition whose metric is present: the operator
string is matched against exactly the four recognized operators. -/
lemma evalCondition_custom (mn : String) (t : ℚ) (op : String) (m : Snapshot)
    (v : ℚ) (hv : m mn = some v) :
    evalCondition (.Custom mn t op) m =
      if op = ">" then decide (v > t)
      else if op = "<" then decide (v < t)
      else if op = "==" then decide (|v - t| < 0.001)
      else if op = "!=" then decide (|v - t| ≥ 0.001)
      else false := by
  simp [evalCondition, hv]

/-- C3: for an enabled, non-cooling-down `Custom` rule whose metric is present
with value `v` and threshold `t`, operator `">"` triggers iff `v > t`, `"<"`
iff `v < t`, `"=="` iff `|v - t| < 0.001`, `"!="` iff `|v - t| ≥ 0.001`, and
any other operator string never triggers; in particular with operator `"=="`
and threshold 50, value 50.0004 triggers and value 50.01 does not. -/
theorem custom_operator_semantics (r : AlertRule) (now : Int) (m : Snapshot)
    (mn : String) (t v : ℚ) (op : String)
    (hen : r.enabled = true) (hcd : cooldownActive r now = false)
    (hc : r.condition = .Custom mn t op) (hv : m mn = some v) :
    (op = ">" → (r.should_trigger now m = true ↔ v > t))
  ∧ (op = "<" → (r.should_trigger now m = true ↔ v < t))
  ∧ (op = "==" → (r.should_trigger now m = true ↔ |v - t| < 0.001))
  ∧ (op = "!=" → (r.should_trigger now m = true ↔ |v - t| ≥ 0.001))
  ∧ (op ≠ ">" → op ≠ "<" → op ≠ "==" → op ≠ "!=" →
      r.should_trigger now m = false)
  ∧ (op = "==" → t = 50 → v = 50.0004 → r.should_trigger now m = true)
  ∧ (op = "==" → t = 50 → v = 50.01 → r.should_trigger now m = false) := by
  have key := should_trigger_of_checks r now hen hcd
  have keval := evalCondition_custom mn t op m v hv
  refine ⟨?_, ?_, ?_, ?_, ?_, ?_, ?_⟩
  · intro hop; subst hop
    rw [key, hc, keval, if_pos rfl]
    simp
  · intro hop; subst hop
    rw [key, hc, keval, if_neg (by decide), if_pos rfl]
    simp
  · intro hop; subst hop
    rw [key, hc, keval, if_neg (by decide), if_neg (by decide), if_pos rfl]
    simp
  · intro hop; subst hop
    rw [key, hc, keval, if_neg (by decide), if_neg (by decide), if_neg (by decide),
      if_pos rfl]
    simp
  · intro h1 h2 h3 h4
    rw [key, hc, keval, if_neg h1, if_neg h2, if_neg h3, if_neg h4]
  · intro hop ht hval; subst hop; subst ht; subst hval
    rw [key, hc, keval, if_neg (by decide), if_neg (by decide), if_pos rfl]
    with_unfolding_all rfl
  · intro hop ht hval; subst hop; subst ht; subst hval
    rw [key, hc, keval, if_neg (by decide), if_neg (by decide), if_pos rfl]
    with_unfolding_all rfl

/-- Witness for C3: the sample `==`-rule with threshold 50 triggers on value
50.0004 and not on 50.01, and an unrecognized operator never triggers. -/
theorem custom_operator_semantics_witness :
    custom_eq_rule.should_trigger 0 (snapTemp 50.0004) = true
  ∧ custom_eq_rule.should_trigger 0 (snapTemp 50.01) = false :=
  ⟨(custom_operator_semantics custom_eq_rule 0 (snapTemp 50.0004) "temp" 50 50.0004 "=="
      rfl rfl rfl (by with_unfolding_all rfl)).2.2.2.2.2.1 rfl rfl rfl,
   (custom_operator_semantics custom_eq_rule 0 (snapTemp 50.01) "temp" 50 50.01 "=="
      rfl rfl rfl (by with_unfolding_all rfl)).2.2.2.2.2.2 rfl rfl rfl⟩

/-! ## Claims about the rule set (engine operations) -/

/-- `toggle_rule` only flips an `enabled` flag: the id sequence is unchanged. -/
lemma toggle_rule_map_id (rule_id : String) (b : Bool) (rules : List AlertRule) :
    (toggle_rule rule_id b rules).map AlertRule.id = rules.map AlertRule.id := by
  induction rules with
  | nil => rfl
  | cons r rs ih =>
    by_cases hid : r.id = rule_id
    · simp [toggle_rule, hid]
    · simp [toggle_rule, hid, ih]

/-- The evaluate-and-stamp step only stamps `last_triggered`: the id sequence
is unchanged. -/
lemma evaluate_tick_map_id (now : Int) (metrics : Snapshot) (rules : List AlertRule) :
    (evaluate_tick now metrics rules).map AlertRule.id = rules.map AlertRule.id := by
  induction rules with
  | nil => rfl
  | cons r rs ih =>
    by_cases hl : r.should_trigger now metrics
    · simp [evaluate_tick, hl, AlertRule.mark_triggered] at ih ⊢
      simpa [evaluate_tick] using ih
    · simp [evaluate_tick, hl] at ih ⊢
      simpa [evaluate_tick] using ih

/-- Counterexample for C7 as stated: `AlertEngine::add_rule` pushes the new
rule without any uniqueness check, so adding a rule whose id is already
present breaks pairwise distinctness of rule ids. -/
theorem add_rule_breaks_id_uniqueness :
    (([cpu_high_rule] : List AlertRule).map AlertRule.id).Nodup
  ∧ ¬ ((add_rule cpu_high_rule [cpu_high_rule]).map AlertRule.id).Nodup := by
  constructor
  · decide
  · decide

/-- C7 (amended): starting from pairwise-distinct rule ids, `remove_rule`,
`toggle_rule` and the evaluate-and-stamp step preserve distinctness
unconditionally, and `add_rule` preserves it provided the pushed rule's id is
not already present (the engine itself performs no such check; the
`add_alert_rule` command supplies a freshly generated UUID). -/
theorem rule_ops_preserve_id_nodup (rules : List AlertRule)
    (h : (rules.map AlertRule.id).Nodup) :
    (∀ r : AlertRule, r.id ∉ rules.map AlertRule.id →
        ((add_rule r rules).map AlertRule.id).Nodup)
  ∧ (∀ rule_id, ((remove_rule rule_id rules).map AlertRule.id).Nodup)
  ∧ (∀ rule_id b, ((toggle_rule rule_id b rules).map AlertRule.id).Nodup)
  ∧ (∀ now metrics, ((evaluate_tick now metrics rules).map AlertRule.id).Nodup) := by
  refine ⟨?_, ?_, ?_, ?_⟩
  · intro r hnotin
    have hmap : (add_rule r rules).map AlertRule.id
        = rules.map AlertRule.id ++ [r.id] := by
      simp [add_rule]
    rw [hmap, List.nodup_append]
    refine ⟨h, List.nodup_singleton _, ?_⟩
    intro x hx hmem
    rw [List.mem_singleton.mp hmem] at hx
    exact hnotin hx
  · intro rule_id
    exact List.Nodup.sublist (List.Sublist.map _ (List.filter_sublist _)) h
  · intro rule_id b
    rw [toggle_rule_map_id]
    exact h
  · intro now metrics
    rw [evaluate_tick_map_id]
    exact h

/-- Witness for C7 (amended): concrete instances of the preserved operations
on a one-rule set. -/
theorem rule_ops_preserve_id_nodup_witness :
    ((remove_rule "cpu_high" [cpu_high_rule]).map AlertRule.id).Nodup
  ∧ ((add_rule custom_eq_rule [cpu_high_rule]).map AlertRule.id).Nodup
  ∧ ((toggle_rule "cpu_high" false [cpu_high_rule]).map AlertRule.id).Nodup :=
  ⟨(rule_ops_preserve_id_nodup [cpu_high_rule] (by decide)).2.1 "cpu_high",
   (rule_ops_preserve_id_nodup [cpu_high_rule] (by decide)).1 custom_eq_rule (by decide),
   (rule_ops_preserve_id_nodup [cpu_high_rule] (by decide)).2.2.1 "cpu_high" false⟩

/-! ## Claims about unknown ids (C8) -/

/-- `ackRecords` on a list holding no record with the given id finds nothing
and changes nothing. -/
lemma ackRecords_not_found (record_id : String) (l : List AlertRecord)
    (h : ∀ rec ∈ l, rec.id ≠ record_id) :
    ackRecords record_id l = (false, l) := by
  induction l with
  | nil => rfl
  | cons r rs ih =>
    have hr : r.id ≠ record_id := h r (List.mem_cons_self r rs)
    have hrs := ih (fun rec hrec => h rec (List.mem_cons_of_mem r hrec))
    simp [ackRecords, hr, hrs]

/-- `toggle_rule` on a list holding no rule with the given id changes
nothing. -/
lemma toggle_rule_not_found (rule_id : String) (b : Bool) (rules : List AlertRule)
    (h : ∀ r ∈ rules, r.id ≠ rule_id) :
    toggle_rule rule_id b rules = rules := by
  induction rules with
  | nil => rfl
  | cons r rs ih =>
    have hr : r.id ≠ rule_id := h r (List.mem_cons_self r rs)
    have hrs := ih (fun r' hr' => h r' (List.mem_cons_of_mem r hr'))
    simp [toggle_rule, hr, hrs]

/-- C8: for an unknown rule id, `remove_rule` and `toggle_rule` leave the rule
set entirely unchanged and return without error; for an unknown record id,
`AlertsStore::acknowledge` returns `false` with the history unchanged, and the
`acknowledge_alert` command surfaces this as an error. -/
theorem unknown_id_handling (rule_id record_id : String) (b : Bool)
    (rules : List AlertRule) (s : AlertsStore)
    (hr : ∀ r ∈ rules, r.id ≠ rule_id)
    (hs : ∀ rec ∈ s.records, rec.id ≠ record_id) :
    remove_rule rule_id rules = rules
  ∧ toggle_rule rule_id b rules = rules
  ∧ s.acknowledge record_id = (false, s)
  ∧ acknowledge_alert s record_id = Except.error "Alert record not found" := by
  have hack : s.acknowledge record_id = (false, s) := by
    simp [AlertsStore.acknowledge, ackRecords_not_found record_id s.records hs]
  refine ⟨?_, toggle_rule_not_found rule_id b rules hr, hack, ?_⟩
  · apply List.filter_eq_self.mpr
    intro r hmem
    simpa using hr r hmem
  · simp [acknowledge_alert, hack]

/-- Witness for C8: a one-rule, one-record state and ids matching nothing. -/
theorem unknown_id_handling_witness :
    remove_rule "nope" [cpu_high_rule] = [cpu_high_rule]
  ∧ toggle_rule "nope" false [cpu_high_rule] = [cpu_high_rule]
  ∧ (AlertsStore.mk [mkAlertRecord ⟨"rec-1", 5, "cpu_high", "CPU", "msg", .Warning⟩] 10).acknowledge
      "missing" = (false, AlertsStore.mk [mkAlertRecord ⟨"rec-1", 5, "cpu_high", "CPU", "msg", .Warning⟩] 10)
  ∧ acknowledge_alert (AlertsStore.mk [mkAlertRecord ⟨"rec-1", 5, "cpu_high", "CPU", "msg", .Warning⟩] 10)
      "missing" = Except.error "Alert record not found" :=
  unknown_id_handling "nope" "missing" false [cpu_high_rule]
    (AlertsStore.mk [mkAlertRecord ⟨"rec-1", 5, "cpu_high", "CPU", "msg", .Warning⟩] 10)
    (by decide) (by decide)

/-! ## Claims about the notifier fan-out (C6) -/

/-- C6: with an empty `target_node_ids` the dispatch targets exactly the peers
in the registry snapshot; with a non-empty list it targets exactly the known
peers whose id is a member of the list (unknown ids are silently skipped); and
a single unknown target id yields no targets at all. -/
theorem send_alert_target_resolution :
    (∀ nodes : List NodeInfo, send_alert_targets [] nodes = nodes)
  ∧ (∀ (target_node_ids : List String) (nodes : List NodeInfo), target_node_ids ≠ [] →
      ∀ n, n ∈ send_alert_targets target_node_ids nodes ↔
        n ∈ nodes ∧ n.id ∈ target_node_ids)
  ∧ (∀ (x : String) (nodes : List NodeInfo), (∀ n ∈ nodes, n.id ≠ x) →
      send_alert_targets [x] nodes = []) := by
  refine ⟨?_, ?_, ?_⟩
  · intro nodes
    simp [send_alert_targets]
  · intro target_node_ids nodes hne n
    have hempty : target_node_ids.isEmpty = false := by
      simpa [List.isEmpty_iff] using hne
    simp [send_alert_targets, hempty, List.mem_filter]
  · intro x nodes hall
    have hempty : ([x] : List String).isEmpty = false := rfl
    simp only [send_alert_targets, hempty, Bool.false_eq_true, if_false]
    apply List.filter_eq_nil_iff.mpr
    intro n hn
    simpa using hall n hn

/-- Witness for C6 on a two-peer registry: empty target list reaches both,
`["node-a"]` reaches exactly the peer with that id, and an absent target id
reaches nobody. -/
theorem send_alert_target_resolution_witness :
    send_alert_targets [] [nodeA, nodeB] = [nodeA, nodeB]
  ∧ (nodeA ∈ send_alert_targets ["node-a"] [nodeA, nodeB] ↔
      nodeA ∈ [nodeA, nodeB] ∧ nodeA.id ∈ ["node-a"])
  ∧ send_alert_targets ["X"] [nodeA, nodeB] = [] :=
  ⟨send_alert_target_resolution.1 [nodeA, nodeB],
   send_alert_target_resolution.2.1 ["node-a"] [nodeA, nodeB] (by decide) nodeA,
   send_alert_target_resolution.2.2 "X" [nodeA, nodeB] (by decide)⟩

/-! ## Claims about the discovery registry (C9, C10) -/

/-- Every entry of `insertPeer k v m` either carries the inserted key or was
already in `m`. -/
lemma insertPeer_mem (k : String) (v : NodeInfo) (m : PeerMap) :
    ∀ p ∈ insertPeer k v m, p.1 = k ∨ p ∈ m := by
  induction m with
  | nil =>
    intro p hp
    simp [insertPeer] at hp
    left
    rw [hp]
  | cons q rest ih =>
    obtain ⟨k', v'⟩ := q
    intro p hp
    by_cases hk : k' = k
    · simp [insertPeer, hk] at hp
      rcases hp with hp | hp
      · left; rw [hp]
      · right; exact List.mem_cons_of_mem _ hp
    · simp [insertPeer, hk] at hp
      rcases hp with hp | hp
      · right; rw [hp]; exact List.mem_cons_self _ _
      · rcases ih p hp with h1 | h2
        · left; exact h1
        · right; exact List.mem_cons_of_mem _ h2

/-- One discovery step (event or cleanup sweep) preserves the invariant that
no entry carries the local node's id. -/
lemma discovery_step_preserves (local_node_id : String) (st : DiscoveryStep)
    (m : PeerMap) (h : ∀ p ∈ m, p.1 ≠ local_node_id) :
    ∀ p ∈ applyDiscoveryStep local_node_id m st, p.1 ≠ local_node_id := by
  cases st with
  | event e =>
    cases e with
    | ServiceResolved onode =>
      cases onode with
      | none => exact h
      | some node =>
        by_cases hid : node.id = local_node_id
        · simpa [applyDiscoveryStep, handle_service_event, hid] using h
        · intro p hp
          simp only [applyDiscoveryStep, handle_service_event, hid, if_false] at hp
          rcases insertPeer_mem node.id node m p hp with h1 | h2
          · rw [h1]; exact hid
          · exact h p h2
    | ServiceRemoved fullname =>
      intro p hp
      simp only [applyDiscoveryStep, handle_service_event, List.mem_filter] at hp
      exact h p hp.1
    | Other => exact h
  | cleanup now timeout_seconds =>
    intro p hp
    simp only [applyDiscoveryStep, cleanup_offline_nodes, List.mem_filter] at hp
    exact h p hp.1

/-- The no-local-id invariant is preserved along any run of discovery steps. -/
lemma runDiscovery_aux (local_node_id : String) (steps : List DiscoveryStep)
    (m : PeerMap) (h : ∀ p ∈ m, p.1 ≠ local_node_id) :
    ∀ p ∈ steps.foldl (applyDiscoveryStep local_node_id) m, p.1 ≠ local_node_id := by
  induction steps generalizing m with
  | nil => exact h
  | cons st rest ih => exact ih _ (discovery_step_preserves local_node_id st m h)

/-- C9: a `Resolved` event whose extracted id equals the local node id is
discarded with the peer map unchanged, and consequently every state of the
discovered-node map reachable by any sequence of discovery events and cleanup
sweeps excludes the local node id as a key. -/
theorem registry_excludes_local_id (local_node_id : String) :
    (∀ (node : NodeInfo) (nodes : PeerMap), node.id = local_node_id →
        handle_service_event local_node_id (.ServiceResolved (some node)) nodes = nodes)
  ∧ (∀ steps : List DiscoveryStep, ∀ p ∈ runDiscovery local_node_id steps,
        p.1 ≠ local_node_id) := by
  constructor
  · intro node nodes hid
    simp [handle_service_event, hid]
  · intro steps
    exact runDiscovery_aux local_node_id steps [] (by simp)

/-- Witness for C9: resolving the local node itself leaves the map unchanged,
and after resolving a genuine peer the map's sole entry is not the local id. -/
theorem registry_excludes_local_id_witness :
    handle_service_event "node-a" (.ServiceResolved (some nodeA)) [("node-b", nodeB)]
      = [("node-b", nodeB)]
  ∧ ("node-b", nodeB).1 ≠ "node-a" :=
  ⟨(registry_excludes_local_id "node-a").1 nodeA [("node-b", nodeB)] rfl,
   (registry_excludes_local_id "node-a").2
     [DiscoveryStep.event (.ServiceResolved (some nodeB))] ("node-b", nodeB) (by decide)⟩

/-- C10: a `Removed` event deletes peers by display-name match: an entry
survives it exactly when its computed advertised-service name
`{name}._skywidget._tcp.local.` differs from the removed service's full name;
if no entry's computed name matches, the map is unchanged; and every entry
whose computed name matches is deleted — in particular two distinct peers
sharing one display name are both deleted by the single event. -/
theorem removed_event_matches_by_name (local_node_id fullname : String) (nodes : PeerMap) :
    (∀ p : String × NodeInfo,
        p ∈ handle_service_event local_node_id (.ServiceRemoved fullname) nodes ↔
          p ∈ nodes ∧ service_name_of p.2.name ≠ fullname)
  ∧ ((∀ p ∈ nodes, service_name_of p.2.name ≠ fullname) →
        handle_service_event local_node_id (.ServiceRemoved fullname) nodes = nodes)
  ∧ (∀ p ∈ nodes, service_name_of p.2.name = fullname →
        p ∉ handle_service_event local_node_id (.ServiceRemoved fullname) nodes) := by
  have hchar : ∀ p : String × NodeInfo,
      p ∈ handle_service_event local_node_id (.ServiceRemoved fullname) nodes ↔
        p ∈ nodes ∧ service_name_of p.2.name ≠ fullname := by
    intro p
    simp [handle_service_event, List.mem_filter]
  refine ⟨hchar, ?_, ?_⟩
  · intro hall
    simp only [handle_service_event]
    apply List.filter_eq_self.mpr
    intro p hp
    simpa using hall p hp
  · intro p hp heq hmem
    exact ((hchar p).mp hmem).2 heq

/-- Witness for C10: `nodeA` and `nodeB` share the display name `alpha` under
distinct ids; the single `Removed` event for `alpha`'s advertised name deletes
both. -/
theorem removed_event_matches_by_name_witness :
    ("node-a", nodeA) ∉ handle_service_event "me" (.ServiceRemoved "alpha._skywidget._tcp.local.")
        [("node-a", nodeA), ("node-b", nodeB)]
  ∧ ("node-b", nodeB) ∉ handle_service_event "me" (.ServiceRemoved "alpha._skywidget._tcp.local.")
        [("node-a", nodeA), ("node-b", nodeB)] :=
  ⟨(removed_event_matches_by_name "me" "alpha._skywidget._tcp.local."
      [("node-a", nodeA), ("node-b", nodeB)]).2.2 ("node-a", nodeA) (by decide) (by decide),
   (removed_event_matches_by_name "me" "alpha._skywidget._tcp.local."
      [("node-a", nodeA), ("node-b", nodeB)]).2.2 ("node-b", nodeB) (by decide) (by decide)⟩


/-! ## Claims about the bounded stores (C4, C5) -/

/-- Dropping from a prefix then dropping again fuses into one drop on the
concatenation. -/
lemma drop_append_drop {α : Type} (l₁ l₂ : List α) (k j : Nat) (hk : k ≤ l₁.length) :
    (l₁.drop k ++ l₂).drop j = (l₁ ++ l₂).drop (k + j) := by
  rw [← List.drop_append_of_le_length hk, List.drop_drop]

/-- One `add_record` on a within-capacity queue keeps the suffix of the
extended queue that fits the capacity. -/
lemma add_record_records (s : AlertsStore) (i : AddRecordInput)
    (h : s.records.length ≤ s.max_records) :
    (s.add_record i).records
      = (s.records ++ [mkAlertRecord i]).drop (s.records.length + 1 - s.max_records) := by
  simp only [AlertsStore.add_record, List.length_append, List.length_cons, List.length_nil]
  by_cases hlen : s.records.length + 1 > s.max_records
  · have h1 : s.records.length + 1 - s.max_records = 1 := by omega
    simp [hlen, h1]
  · have h0 : s.records.length + 1 - s.max_records = 0 := by omega
    simp [hlen, h0]

/-- `add_record` never leaves the queue above capacity. -/
lemma add_record_length_le (s : AlertsStore) (i : AddRecordInput)
    (h : s.records.length ≤ s.max_records) :
    (s.add_record i).records.length ≤ s.max_records := by
  rw [add_record_records s i h, List.length_drop, List.length_append]
  simp only [List.length_cons, List.length_nil]
  omega

/-- A run of `add_record` calls from a within-capacity queue retains exactly
the capacity-fitting suffix of all records ever enqueued, in order. -/
lemma addAllRecords_records (is : List AddRecordInput) (s : AlertsStore)
    (h : s.records.length ≤ s.max_records) :
    (addAllRecords is s).records
      = (s.records ++ is.map mkAlertRecord).drop
          (s.records.length + is.length - s.max_records)
  ∧ (addAllRecords is s).max_records = s.max_records := by
  induction is generalizing s with
  | nil =>
    have h0 : s.records.length + ([] : List AddRecordInput).length - s.max_records = 0 := by
      simp only [List.length_nil]
      omega
    constructor
    · simp only [addAllRecords, List.foldl_nil, List.map_nil, List.append_nil, h0,
        List.drop_zero]
    · rfl
  | cons i rest ih =>
    have h1 := add_record_records s i h
    have h2 : (s.add_record i).records.length ≤ (s.add_record i).max_records :=
      add_record_length_le s i h
    obtain ⟨ihrec, ihmax⟩ := ih (s.add_record i) h2
    have hstep : addAllRecords (i :: rest) s = addAllRecords rest (s.add_record i) := rfl
    have hmax : (s.add_record i).max_records = s.max_records := rfl
    have hk : s.records.length + 1 - s.max_records
        ≤ (s.records ++ [mkAlertRecord i]).length := by
      simp only [List.length_append, List.length_cons, List.length_nil]
      omega
    constructor
    · rw [hstep, ihrec, hmax, h1, drop_append_drop _ _ _ _ hk]
      simp only [List.length_drop, List.length_append, List.length_cons, List.length_nil,
        List.map_cons, List.length_map, List.append_assoc, List.cons_append, List.nil_append]
      congr 1
      omega
    · rw [hstep, ihmax, hmax]

/-- `acknowledge` never changes the number of records. -/
lemma ackRecords_length (record_id : String) (l : List AlertRecord) :
    (ackRecords record_id l).2.length = l.length := by
  induction l with
  | nil => rfl
  | cons r rs ih =>
    by_cases hr : r.id = record_id <;> simp [ackRecords, hr, ih]

/-- Every store operation keeps the queue within capacity. -/
lemma applyOp_length_le (s : AlertsStore) (op : AlertsOp)
    (h : s.records.length ≤ s.max_records) :
    (s.applyOp op).records.length ≤ s.max_records := by
  cases op with
  | add i => exact add_record_length_le s i h
  | ack record_id =>
    simpa [AlertsStore.applyOp, AlertsStore.acknowledge, ackRecords_length] using h
  | clear => simp [AlertsStore.applyOp, AlertsStore.clear]

/-- No store operation changes the capacity. -/
lemma applyOp_max (s : AlertsStore) (op : AlertsOp) :
    (s.applyOp op).max_records = s.max_records := by
  cases op <;> rfl

/-- A run of store operations from a within-capacity queue stays within
capacity. -/
lemma runAlertsOps_length_le (ops : List AlertsOp) (s : AlertsStore)
    (h : s.records.length ≤ s.max_records) :
    (runAlertsOps ops s).records.length ≤ s.max_records := by
  induction ops generalizing s with
  | nil => exact h
  | cons op rest ih =>
    have hstep : runAlertsOps (op :: rest) s = runAlertsOps rest (s.applyOp op) := rfl
    rw [hstep]
    have hnext := ih (s.applyOp op) (by rw [applyOp_max]; exact applyOp_length_le s op h)
    rwa [applyOp_max] at hnext

/-- C4: an `AlertsStore` of capacity `N` holds, after any `N + 5` `add_record`
calls, exactly the `N` records of the most recent calls in insertion
(oldest-first FIFO) order, and no sequence of store operations ever leaves
more than `N` records. -/
theorem alerts_store_capacity_fifo (N : Nat) (is : List AddRecordInput)
    (h : is.length = N + 5) :
    (addAllRecords is (AlertsStore.new N)).records = (is.map mkAlertRecord).drop 5
  ∧ (addAllRecords is (AlertsStore.new N)).records.length = N
  ∧ ∀ ops : List AlertsOp, (runAlertsOps ops (AlertsStore.new N)).records.length ≤ N := by
  have hlen0 : (AlertsStore.new N).records.length ≤ (AlertsStore.new N).max_records := by
    simp [AlertsStore.new]
  obtain ⟨hrec, -⟩ := addAllRecords_records is (AlertsStore.new N) hlen0
  have h5 : (AlertsStore.new N).records.length + is.length
      - (AlertsStore.new N).max_records = 5 := by
    show ([] : List AlertRecord).length + is.length - N = 5
    simp only [List.length_nil]
    omega
  rw [h5] at hrec
  have hnil : (AlertsStore.new N).records = [] := rfl
  rw [hnil, List.nil_append] at hrec
  refine ⟨hrec, ?_, ?_⟩
  · rw [hrec, List.length_drop, List.length_map, h]
    omega
  · intro ops
    exact runAlertsOps_length_le ops (AlertsStore.new N) hlen0

/-- Seven concrete `add_record` inputs used in the C4 witness. -/
def wIns : List AddRecordInput :=
  [⟨"1", 1, "r", "n", "m", .Info⟩, ⟨"2", 2, "r", "n", "m", .Info⟩,
   ⟨"3", 3, "r", "n", "m", .Info⟩, ⟨"4", 4, "r", "n", "m", .Info⟩,
   ⟨"5", 5, "r", "n", "m", .Info⟩, ⟨"6", 6, "r", "n", "m", .Warning⟩,
   ⟨"7", 7, "r", "n", "m", .Critical⟩]

/-- Witness for C4: capacity 2, seven appends, then a concrete operation
sequence. -/
theorem alerts_store_capacity_fifo_witness :
    (addAllRecords wIns (AlertsStore.new 2)).records = (wIns.map mkAlertRecord).drop 5
  ∧ (addAllRecords wIns (AlertsStore.new 2)).records.length = 2
  ∧ (runAlertsOps [.add ⟨"a", 0, "r", "n", "m", .Info⟩, .ack "a", .clear]
      (AlertsStore.new 2)).records.length ≤ 2 :=
  ⟨(alerts_store_capacity_fifo 2 wIns (by decide)).1,
   (alerts_store_capacity_fifo 2 wIns (by decide)).2.1,
   (alerts_store_capacity_fifo 2 wIns (by decide)).2.2
     [.add ⟨"a", 0, "r", "n", "m", .Info⟩, .ack "a", .clear]⟩

/-- The length-based trim of `add_metric` always keeps the capacity-fitting
suffix. -/
lemma trimPoints_eq_drop (N : Nat) (l : List MetricDataPoint) :
    trimPoints N l = l.drop (l.length - N) := by
  unfold trimPoints
  by_cases h : l.length > N
  · simp [h]
  · have h0 : l.length - N = 0 := by omega
    simp [h, h0]

/-- The trimmed point list never exceeds the capacity. -/
lemma trimPoints_length_le (N : Nat) (l : List MetricDataPoint) :
    (trimPoints N l).length ≤ N := by
  rw [trimPoints_eq_drop, List.length_drop]
  omega

/-- Effect of one `add_metric` on the touched metric's point list. -/
lemma add_metric_data_same (s : MetricsStore) (now : Int) (metric_name : String) (v : ℚ) :
    (s.add_metric now metric_name v).data metric_name
      = (s.data metric_name ++ [({ timestamp := now, value := v } : MetricDataPoint)]).drop
          ((s.data metric_name).length + 1 - s.max_data_points) := by
  simp only [MetricsStore.add_metric, Function.update_same]
  rw [trimPoints_eq_drop]
  simp

/-- `trimPoints` of the extended list, i.e. the touched metric after one
`add_metric`, stays within capacity. -/
lemma add_metric_data_same_length_le (s : MetricsStore) (now : Int) (metric_name : String)
    (v : ℚ) :
    ((s.add_metric now metric_name v).data metric_name).length ≤ s.max_data_points := by
  simp only [MetricsStore.add_metric, Function.update_same]
  exact trimPoints_length_le _ _

/-- A run of same-metric `add_metric` calls from a within-capacity list
retains exactly the capacity-fitting suffix of all appended points, in
order. -/
lemma addMetricSeq_data (metric_name : String) (ps : List (Int × ℚ)) (s : MetricsStore)
    (h : (s.data metric_name).length ≤ s.max_data_points) :
    (addMetricSeq metric_name ps s).data metric_name
      = (s.data metric_name
          ++ ps.map fun p => ({ timestamp := p.1, value := p.2 } : MetricDataPoint)).drop
          ((s.data metric_name).length + ps.length - s.max_data_points)
  ∧ (addMetricSeq metric_name ps s).max_data_points = s.max_data_points := by
  induction ps generalizing s with
  | nil =>
    have h0 : (s.data metric_name).length + ([] : List (Int × ℚ)).length
        - s.max_data_points = 0 := by
      simp only [List.length_nil]
      omega
    constructor
    · simp only [addMetricSeq, List.foldl_nil, List.map_nil, List.append_nil, h0,
        List.drop_zero]
    · rfl
  | cons p rest ih =>
    have h1 := add_metric_data_same s p.1 metric_name p.2
    have h2 : ((s.add_metric p.1 metric_name p.2).data metric_name).length
        ≤ (s.add_metric p.1 metric_name p.2).max_data_points :=
      add_metric_data_same_length_le s p.1 metric_name p.2
    obtain ⟨ihrec, ihmax⟩ := ih (s.add_metric p.1 metric_name p.2) h2
    have hstep : addMetricSeq metric_name (p :: rest) s
        = addMetricSeq metric_name rest (s.add_metric p.1 metric_name p.2) := rfl
    have hmax : (s.add_metric p.1 metric_name p.2).max_data_points
        = s.max_data_points := rfl
    have hk : (s.data metric_name).length + 1 - s.max_data_points
        ≤ (s.data metric_name
            ++ [({ timestamp := p.1, value := p.2 } : MetricDataPoint)]).length := by
      simp only [List.length_append, List.length_cons, List.length_nil]
      omega
    constructor
    · rw [hstep, ihrec, hmax, h1, drop_append_drop _ _ _ _ hk]
      simp only [List.length_drop, List.length_append, List.length_cons, List.length_nil,
        List.map_cons, List.length_map, List.append_assoc, List.cons_append, List.nil_append]
      congr 1
      omega
    · rw [hstep, ihmax, hmax]

/-- One `add_metric` keeps every metric's point list within capacity. -/
lemma add_metric_length_le (s : MetricsStore) (now : Int) (metric_name : String) (v : ℚ)
    (h : ∀ k, (s.data k).length ≤ s.max_data_points) :
    ∀ k, ((s.add_metric now metric_name v).data k).length ≤ s.max_data_points := by
  intro k
  by_cases hk : k = metric_name
  · subst hk
    simp only [MetricsStore.add_metric, Function.update_same]
    exact trimPoints_length_le _ _
  · simp only [MetricsStore.add_metric, Function.update_noteq hk]
    exact h k

/-- A run of arbitrary `add_metric` calls keeps every metric within
capacity. -/
lemma runMetricAdds_length_le (as' : List MetricAdd) (s : MetricsStore)
    (h : ∀ k, (s.data k).length ≤ s.max_data_points) :
    ∀ k, ((runMetricAdds as' s).data k).length ≤ s.max_data_points := by
  induction as' generalizing s with
  | nil => exact h
  | cons a rest ih =>
    have hstep : runMetricAdds (a :: rest) s
        = runMetricAdds rest (s.add_metric a.now a.metric_name a.value) := rfl
    rw [hstep]
    exact ih _ (add_metric_length_le s a.now a.metric_name a.value h)

/-- C5: a `MetricsStore` of per-metric capacity `N` holds, after `N + 5`
appends to one metric, exactly the `N` most recently appended points of that
metric in order, and no sequence of `add_metric` calls ever leaves any
metric's point list above `N`. -/
theorem metrics_store_capacity (N : Nat) (metric_name : String) (ps : List (Int × ℚ))
    (h : ps.length = N + 5) :
    (addMetricSeq metric_name ps (MetricsStore.new N)).data metric_name
      = (ps.map fun p => ({ timestamp := p.1, value := p.2 } : MetricDataPoint)).drop 5
  ∧ ((addMetricSeq metric_name ps (MetricsStore.new N)).data metric_name).length = N
  ∧ ∀ (as' : List MetricAdd) (k : String),
      ((runMetricAdds as' (MetricsStore.new N)).data k).length ≤ N := by
  obtain ⟨hrec, -⟩ := addMetricSeq_data metric_name ps (MetricsStore.new N)
    (by simp [MetricsStore.new])
  have h5 : ((MetricsStore.new N).data metric_name).length + ps.length
      - (MetricsStore.new N).max_data_points = 5 := by
    show ([] : List MetricDataPoint).length + ps.length - N = 5
    simp only [List.length_nil]
    omega
  rw [h5] at hrec
  have hnil : (MetricsStore.new N).data metric_name = [] := rfl
  rw [hnil, List.nil_append] at hrec
  refine ⟨hrec, ?_, ?_⟩
  · rw [hrec, List.length_drop, List.length_map, h]
    omega
  · intro as' k
    exact runMetricAdds_length_le as' (MetricsStore.new N) (fun _ => by simp [MetricsStore.new]) k

/-- Six concrete (timestamp, value) appends used in the C5 witness. -/
def wPts : List (Int × ℚ) := [(1, 10), (2, 20), (3, 30), (4, 40), (5, 50), (6, 60)]

/-- Witness for C5: per-metric capacity 1, six appends to `cpu_usage`, then a
concrete mixed-metric run. -/
theorem metrics_store_capacity_witness :
    (addMetricSeq "cpu_usage" wPts (MetricsStore.new 1)).data "cpu_usage"
      = (wPts.map fun p => ({ timestamp := p.1, value := p.2 } : MetricDataPoint)).drop 5
  ∧ ((addMetricSeq "cpu_usage" wPts (MetricsStore.new 1)).data "cpu_usage").length = 1
  ∧ ((runMetricAdds [⟨1, "cpu_usage", 10⟩, ⟨2, "memory_usage_percent", 20⟩,
        ⟨3, "cpu_usage", 30⟩] (MetricsStore.new 1)).data "cpu_usage").length ≤ 1 :=
  ⟨(metrics_store_capacity 1 "cpu_usage" wPts (by decide)).1,
   (metrics_store_capacity 1 "cpu_usage" wPts (by decide)).2.1,
   (metrics_store_capacity 1 "cpu_usage" wPts (by decide)).2.2
     [⟨1, "cpu_usage", 10⟩, ⟨2, "memory_usage_percent", 20⟩, ⟨3, "cpu_usage", 30⟩]
     "cpu_usage"⟩

end SkyWidget
